import Mathlib

/-!
# Verification of the Mikrotik session-normalization layer

Shallow embedding of `MikrotikBase` from `netmiko/mikrotik/mikrotik_ssh.py`:
the command-echo reconciler, the prompt stripper, the prompt setter, the
connection-parameter shaper and the capability stubs, together with theorems
about them.

Strings are modelled as `List Char` (`Str`), and the Python string
operations used by the source (`str.split`, `str.rstrip`, `str.strip`,
substring containment via `in`, `str.join`) are given faithful executable
models below.  Transport interaction is modelled explicitly: operations that
touch the channel return a trace of the channel calls they issue, and the
channel itself (an external collaborator) is an oracle supplying the outcome
of each read.
-/

namespace Mikrotik

/-- Python strings, modelled as lists of characters. -/
abbrev Str := List Char

/-- ASCII whitespace as recognized by Python `str.strip()` / `str.rstrip()`. -/
def isPySpace (c : Char) : Bool :=
  c = ' ' || c = '\t' || c = '\n' || c = '\r' || c = '\x0b' || c = '\x0c'

/-- Python `s.rstrip()`: remove trailing whitespace. -/
def pyRstrip (s : Str) : Str :=
  (s.reverse.dropWhile isPySpace).reverse

/-- Python `s.lstrip()`: remove leading whitespace. -/
def pyLstrip (s : Str) : Str :=
  s.dropWhile isPySpace

/-- Python `s.strip()`: remove leading and trailing whitespace. -/
def pyStrip (s : Str) : Str :=
  pyLstrip (pyRstrip s)

/-- Python `needle in hay` (substring containment). -/
def containsSeq : Str → Str → Bool
  | [], needle => needle.isEmpty
  | c :: t, needle => needle.isPrefixOf (c :: t) || containsSeq t needle

/-- Fuelled worker for Python `s.split(sep)` with a non-empty separator:
scan left to right, splitting at each (leftmost, non-overlapping) occurrence
of `sep`.  The fuel only guarantees termination; `pySplit` supplies enough
fuel that it is never exhausted. -/
def pySplitAux (sep : Str) : Nat → Str → List Str
  | 0, s => [s]
  | fuel + 1, s =>
    if !sep.isEmpty && sep.isPrefixOf s then
      [] :: pySplitAux sep fuel (s.drop sep.length)
    else
      match s with
      | [] => [[]]
      | c :: rest =>
        match pySplitAux sep fuel rest with
        | [] => [[c]]
        | chunk :: chunks => (c :: chunk) :: chunks

/-- Python `s.split(sep)` for a non-empty separator `sep`.
(The source only ever splits on the line terminator, which is non-empty;
for `sep = []` we return `[s]`, a case the source never reaches.) -/
def pySplit (sep s : Str) : List Str :=
  pySplitAux sep (s.length + 1) s

/-- Regular-expression patterns as they are passed to the channel reads:
`escaped s` is `re.escape(s)`, a pattern matching the characters of `s`
literally; `raw s` is an ordinary (wildcard-capable) pattern string. -/
inductive RePattern where
  | escaped (s : Str)
  | raw (s : Str)
deriving DecidableEq, Repr

/-- A `ReadTimeout` exception value raised by a channel read. -/
structure ReadTimeoutExc where
  msg : Str
deriving DecidableEq, Repr

/-- Outcome of one `read_until_pattern` channel call, supplied by the
transport oracle: either data in which the pattern was observed, or a
`ReadTimeout` exception. -/
inductive ReadOutcome where
  | success (data : Str)
  | timeout (e : ReadTimeoutExc)
deriving DecidableEq, Repr

/-- Record of one `read_until_pattern` call issued to the channel:
the pattern and the read timeout (in time units) that were passed. -/
structure ReadCall where
  pattern : RePattern
  read_timeout : ℚ
deriving DecidableEq, Repr

/-- Record of a transport interaction (used to state that the capability
stubs perform none). -/
inductive TransportOp where
  | write (data : Str)
  | read (call : ReadCall)
deriving DecidableEq, Repr

/-- The Mikrotik session state: the fields of the connection object that the
embedded methods read or write. -/
structure MikrotikSession where
  base_prompt : Str
  in_config_mode : Bool
  default_enter : Str
  RESPONSE_RETURN : Str
  username : Str
  ansi_escape_codes : Bool
deriving DecidableEq, Repr

/-- `MikrotikBase.__init__`: if the caller did not supply `default_enter`
(or supplied `None`), it is set to `"\r\n"`; `_in_config_mode` is
initialized to `False`; the remaining fields are produced by the generic
base initializer and are taken here as parameters. -/
def MikrotikSession.init (default_enter_kwarg : Option Str)
    (base_prompt username RESPONSE_RETURN : Str) (ansi : Bool) :
    MikrotikSession :=
  { base_prompt := base_prompt
  , in_config_mode := false
  , default_enter := default_enter_kwarg.getD ['\r', '\n']
  , RESPONSE_RETURN := RESPONSE_RETURN
  , username := username
  , ansi_escape_codes := ansi }

/-- `MikrotikBase._modify_connection_params`:
`self.username += "+cetw511h4098"`. -/
def MikrotikSession.modify_connection_params (self : MikrotikSession) :
    MikrotikSession :=
  { self with username :=
      self.username ++ ['+', 'c', 'e', 't', 'w', '5', '1', '1', 'h', '4', '0', '9', '8'] }

/-- `MikrotikBase.disable_paging`: returns `""`; the trailing list is the
(empty) trace of transport operations performed. -/
def MikrotikSession.disable_paging (self : MikrotikSession) (args : List Str) :
    MikrotikSession × Str × List TransportOp :=
  (self, [], [])

/-- `MikrotikBase.save_config`: returns `""`; no transport operations. -/
def MikrotikSession.save_config (self : MikrotikSession) (args : List Str) :
    MikrotikSession × Str × List TransportOp :=
  (self, [], [])

/-- `MikrotikBase.config_mode`: sets `self._in_config_mode = True` and
returns `""`; no transport operations. -/
def MikrotikSession.config_mode (self : MikrotikSession)
    (config_command pattern : Str) (re_flags : Int) :
    MikrotikSession × Str × List TransportOp :=
  ({ self with in_config_mode := true }, [], [])

/-- `MikrotikBase.check_config_mode`: returns `self._in_config_mode`. -/
def MikrotikSession.check_config_mode (self : MikrotikSession)
    (check_string pattern : Str) : Bool :=
  self.in_config_mode

/-- `MikrotikBase.exit_config_mode`: sets `self._in_config_mode = False` and
returns `""`; no transport operations. -/
def MikrotikSession.exit_config_mode (self : MikrotikSession)
    (exit_config pattern : Str) :
    MikrotikSession × Str × List TransportOp :=
  ({ self with in_config_mode := false }, [], [])

/-- Modelled from the spec: the shared generic prompt-stripping pass
(`BaseConnection.strip_prompt`), which is not under `src/` — the spec says
it "removes any further trailing prompt occurrence using the base
algorithm": split the text on the line terminator; if the base prompt
occurs in the last line, drop that last line; otherwise return the text
unchanged. -/
def base_strip_prompt (self : MikrotikSession) (a_string : Str) : Str :=
  let response_list := pySplit self.RESPONSE_RETURN a_string
  let last_line := response_list.getLastD []
  if containsSeq last_line self.base_prompt then
    List.intercalate self.RESPONSE_RETURN response_list.dropLast
  else
    a_string

/-- `MikrotikBase.strip_prompt`: split on `self.RESPONSE_RETURN`; if
`self.base_prompt` occurs in the last line, drop that last line, `rstrip`,
apply the parent (generic) strip pass, and `strip` the result; otherwise
return the input unchanged. -/
def MikrotikSession.strip_prompt (self : MikrotikSession) (a_string : Str) :
    Str :=
  let response_list := pySplit self.RESPONSE_RETURN a_string
  let last_line := response_list.getLastD []
  if containsSeq last_line self.base_prompt then
    let a1 := List.intercalate self.RESPONSE_RETURN response_list.dropLast
    let a2 := pyRstrip a1
    let a3 := base_strip_prompt self a2
    pyStrip a3
  else
    a_string

/-- `MikrotikBase.set_base_prompt`: the generic base algorithm derives the
prompt string (that derivation lives outside `src/`, so the derived prompt
is taken here as the parameter `derived`); this override then strips it and
stores the stripped value as `self.base_prompt`, returning it. -/
def MikrotikSession.set_base_prompt (self : MikrotikSession) (derived : Str) :
    MikrotikSession × Str :=
  let prompt := pyStrip derived
  ({ self with base_prompt := prompt }, prompt)

/-- Arguments with which `MikrotikBase.send_command_timing` invokes the
shared generic timed-send implementation (only the arguments the override
touches; all other keyword arguments pass through unchanged). -/
structure TimingCall where
  command_string : Str
  cmd_verify : Bool
deriving DecidableEq, Repr

/-- `MikrotikBase.send_command_timing`: the Python signature declares
`cmd_verify: bool = True` (so an absent keyword argument defaults to
`True`) and passes the resulting value through to
`super().send_command_timing`.  The caller's keyword argument is modelled
as an `Option`: `none` means the caller did not supply `cmd_verify`. -/
def send_command_timing (command_string : Str) (cmd_verify : Option Bool) :
    TimingCall :=
  { command_string := command_string
  , cmd_verify := cmd_verify.getD true }

/-- `MikrotikBase.command_echo_read`: first a mandatory
`read_until_pattern(pattern=re.escape(cmd), read_timeout=read_timeout)`,
whose `ReadTimeout` propagates; then, inside `try`, an optional
`read_until_pattern(pattern=re.escape(cmd), read_timeout=1.5)` whose
`ReadTimeout` is swallowed by the `except` clause; finally `cmd` itself is
returned.  `read1` and `read2` are the channel oracle's outcomes for the
two reads; the second component of the result is the trace of the channel
calls actually issued. -/
def command_echo_read (cmd : Str) (read_timeout : ℚ)
    (read1 read2 : ReadOutcome) :
    Except ReadTimeoutExc Str × List ReadCall :=
  let call1 : ReadCall := { pattern := RePattern.escaped cmd
                          , read_timeout := read_timeout }
  match read1 with
  | ReadOutcome.timeout e => (Except.error e, [call1])
  | ReadOutcome.success _ =>
    let call2 : ReadCall := { pattern := RePattern.escaped cmd
                            , read_timeout := (3 : ℚ) / 2 }
    match read2 with
    | ReadOutcome.timeout _ => (Except.ok cmd, [call1, call2])
    | ReadOutcome.success _ => (Except.ok cmd, [call1, call2])

/-- The last line of `s` when split on `sep` (the `response_list[-1]` of the
source). -/
def lastLine (sep s : Str) : Str :=
  (pySplit sep s).getLastD []

/-- A concrete session used by witnesses: prompt `"[admin] >"`,
line terminator `"\n"`, username `"admin"`. -/
def sampleSession : MikrotikSession :=
  { base_prompt := ['[', 'a', 'd', 'm', 'i', 'n', ']', ' ', '>']
  , in_config_mode := false
  , default_enter := ['\r', '\n']
  , RESPONSE_RETURN := ['\n']
  , username := ['a', 'd', 'm', 'i', 'n']
  , ansi_escape_codes := true }

/-! ## Helper lemmas -/

theorem pyRstrip_def (s : Str) : pyRstrip s = List.rdropWhile isPySpace s :=
  rfl

theorem pyRstrip_idem (s : Str) : pyRstrip (pyRstrip s) = pyRstrip s :=
  List.rdropWhile_idempotent isPySpace s

theorem pyRstrip_fixed_iff {s : Str} :
    pyRstrip s = s ↔ ∀ h : s ≠ [], ¬ isPySpace (s.getLast h) :=
  List.rdropWhile_eq_self_iff

/-- Appending a string that is already right-stripped and non-empty leaves
`pyRstrip` with nothing to remove. -/
theorem pyRstrip_append_fixed (x P : Str) (hP : pyRstrip P = P) (hne : P ≠ []) :
    pyRstrip (x ++ P) = x ++ P := by
  rw [pyRstrip_def, List.rdropWhile_eq_self_iff]
  intro h
  have hlast : (x ++ P).getLast h = P.getLast hne := List.getLast_append' x P hne
  rw [hlast]
  exact (pyRstrip_fixed_iff.mp hP) hne

/-- The result of `pyStrip` has no trailing whitespace. -/
theorem pyRstrip_pyStrip (s : Str) : pyRstrip (pyStrip s) = pyStrip s := by
  have hfix : pyRstrip (pyRstrip s) = pyRstrip s := pyRstrip_idem s
  unfold pyStrip pyLstrip
  rw [pyRstrip_def, List.rdropWhile_eq_self_iff]
  intro hl
  have hsuf : (pyRstrip s).dropWhile isPySpace <:+ pyRstrip s :=
    List.dropWhile_suffix _
  obtain ⟨pre, hpre⟩ := hsuf
  have hne : pyRstrip s ≠ [] := by
    intro h
    apply hl
    rw [h]
    rfl
  have h1 : ((pyRstrip s).dropWhile isPySpace).getLast? = (pyRstrip s).getLast? := by
    conv_rhs => rw [← hpre]
    rw [List.getLast?_append_of_ne_nil _ hl]
  have h2 : ((pyRstrip s).dropWhile isPySpace).getLast? =
      some (((pyRstrip s).dropWhile isPySpace).getLast hl) :=
    List.getLast?_eq_getLast_of_ne_nil hl
  have h3 : (pyRstrip s).getLast? = some ((pyRstrip s).getLast hne) :=
    List.getLast?_eq_getLast_of_ne_nil hne
  have h4 : ((pyRstrip s).dropWhile isPySpace).getLast hl =
      (pyRstrip s).getLast hne := by
    have := h2.symm.trans (h1.trans h3)
    exact Option.some_injective _ this
  rw [h4]
  exact (pyRstrip_fixed_iff.mp hfix) hne

theorem splitOn_cons_char (c a : Char) (t : Str) :
    (a :: t).splitOn c
      = if a == c then [] :: t.splitOn c
        else (t.splitOn c).modifyHead (List.cons a) := by
  simp only [List.splitOn, List.splitOnP_cons]

/-- `pySplit` with a single-character separator agrees with Mathlib's
element-wise `List.splitOn`. -/
theorem pySplitAux_singleton (c : Char) :
    ∀ (s : Str) (fuel : Nat), s.length < fuel →
      pySplitAux [c] fuel s = s.splitOn c := by
  intro s
  induction s with
  | nil =>
    intro fuel h
    cases fuel with
    | zero => exact absurd h (Nat.not_lt_zero _)
    | succ f =>
      simp [pySplitAux]
  | cons a t ih =>
    intro fuel h
    cases fuel with
    | zero => exact absurd h (Nat.not_lt_zero _)
    | succ f =>
      have ht : t.length < f := Nat.lt_of_succ_lt_succ h
      by_cases hac : a = c
      · subst hac
        simp only [pySplitAux, List.isEmpty_cons, Bool.not_false,
          List.isPrefixOf_cons₂, List.isPrefixOf_nil_left, Bool.and_true,
          Bool.true_and, beq_self_eq_true, if_true]
        rw [show List.drop [a].length (a :: t) = t from rfl, ih f ht,
          splitOn_cons_char]
        simp
      · have h1 : (c == a) = false := beq_eq_false_iff_ne.mpr (Ne.symm hac)
        have h2 : (a == c) = false := beq_eq_false_iff_ne.mpr hac
        simp only [pySplitAux, List.isEmpty_cons, Bool.not_false,
          List.isPrefixOf_cons₂, List.isPrefixOf_nil_left, Bool.and_true,
          Bool.true_and, h1, if_false]
        rw [ih f ht, splitOn_cons_char, h2, if_neg (by simp)]
        rcases heq : t.splitOn c with _ | ⟨hd, tl⟩
        · exact absurd heq (by simpa [List.splitOn] using List.splitOnP_ne_nil _ t)
        · rfl

theorem pySplit_singleton (c : Char) (s : Str) : pySplit [c] s = s.splitOn c :=
  pySplitAux_singleton c s (s.length + 1) (Nat.lt_succ_self _)

/-- Round trip: splitting a join on a single-character separator recovers the
chunks, provided no chunk contains the separator. -/
theorem pySplit_intercalate (c : Char) (chunks : List Str)
    (hne : chunks ≠ []) (hfree : ∀ l ∈ chunks, c ∉ l) :
    pySplit [c] (List.intercalate [c] chunks) = chunks := by
  rw [pySplit_singleton]
  exact List.splitOn_intercalate chunks c hfree hne

theorem containsSeq_self (l : Str) : containsSeq l l = true := by
  cases l with
  | nil => rfl
  | cons a t => simp [containsSeq, List.isPrefixOf_iff_prefix]

theorem intercalate_one (sep x : Str) : List.intercalate sep [x] = x := by
  simp [List.intercalate]

theorem intercalate_cons₂ (sep a b : Str) (t : List Str) :
    List.intercalate sep (a :: b :: t)
      = a ++ sep ++ List.intercalate sep (b :: t) := by
  simp [List.intercalate, List.append_assoc]

/-- A join ending in the chunk `P` is some string followed by `P`. -/
theorem intercalate_concat_ex (sep P : Str) (body : List Str) :
    ∃ x, List.intercalate sep (body ++ [P]) = x ++ P := by
  induction body with
  | nil => exact ⟨[], by simp [intercalate_one]⟩
  | cons a t ih =>
    cases t with
    | nil =>
      exact ⟨a ++ sep, by
        simp [intercalate_cons₂, intercalate_one, List.append_assoc]⟩
    | cons b u =>
      obtain ⟨x, hx⟩ := ih
      refine ⟨a ++ sep ++ x, ?_⟩
      have h3 : (b :: u) ++ [P] = b :: (u ++ [P]) := rfl
      rw [show (a :: b :: u) ++ [P] = a :: ((b :: u) ++ [P]) from rfl,
        h3, intercalate_cons₂, ← h3, hx]
      simp [List.append_assoc]

theorem pyStrip_pyRstrip (x : Str) : pyStrip (pyRstrip x) = pyStrip x := by
  unfold pyStrip
  rw [pyRstrip_idem]

/-- Unfolded form of `MikrotikSession.strip_prompt`. -/
theorem strip_prompt_eq (s : MikrotikSession) (a : Str) :
    s.strip_prompt a =
      if containsSeq (lastLine s.RESPONSE_RETURN a) s.base_prompt then
        pyStrip (base_strip_prompt s
          (pyRstrip (List.intercalate s.RESPONSE_RETURN
            (pySplit s.RESPONSE_RETURN a).dropLast)))
      else a :=
  rfl

/-- Unfolded form of `base_strip_prompt`. -/
theorem base_strip_prompt_eq (s : MikrotikSession) (a : Str) :
    base_strip_prompt s a =
      if containsSeq (lastLine s.RESPONSE_RETURN a) s.base_prompt then
        List.intercalate s.RESPONSE_RETURN (pySplit s.RESPONSE_RETURN a).dropLast
      else a :=
  rfl

/-! ## Claim theorems (easy claims) -/

/-- C1: whenever the mandatory first echo read succeeds, `command_echo_read`
returns exactly `cmd` and nothing else — regardless of the outcome of the
optional second (repaint) read — and every channel read it issues matches
`cmd` as a literal (`re.escape`d) pattern, not a wildcard pattern. -/
theorem command_echo_read_returns_cmd (cmd : Str) (rt : ℚ) (d : Str)
    (read2 : ReadOutcome) :
    (command_echo_read cmd rt (ReadOutcome.success d) read2).1 = Except.ok cmd
    ∧ ∀ call ∈ (command_echo_read cmd rt (ReadOutcome.success d) read2).2,
        call.pattern = RePattern.escaped cmd := by
  cases read2 with
  | success d2 =>
    refine ⟨rfl, ?_⟩
    intro call hcall
    simp only [command_echo_read, List.mem_cons, List.mem_singleton] at hcall
    rcases hcall with h | h | h
    · rw [h]
    · rw [h]
    · cases h
  | timeout e2 =>
    refine ⟨rfl, ?_⟩
    intro call hcall
    simp only [command_echo_read, List.mem_cons, List.mem_singleton] at hcall
    rcases hcall with h | h | h
    · rw [h]
    · rw [h]
    · cases h

/-- C2: a `ReadTimeout` of the mandatory first echo read propagates
unmodified (and only one channel call was issued, with the caller's
`read_timeout`), while a `ReadTimeout` of the secondary repaint probe —
which always uses its own fixed timeout of `1.5` time units, independent of
the caller's `read_timeout` — is swallowed and the call still returns
`cmd`. -/
theorem command_echo_read_timeout_policy (cmd : Str) (rt : ℚ)
    (e e2 : ReadTimeoutExc) (r2 : ReadOutcome) (d : Str) :
    (command_echo_read cmd rt (ReadOutcome.timeout e) r2).1 = Except.error e
    ∧ (command_echo_read cmd rt (ReadOutcome.timeout e) r2).2
        = [⟨RePattern.escaped cmd, rt⟩]
    ∧ (command_echo_read cmd rt (ReadOutcome.success d)
        (ReadOutcome.timeout e2)).1 = Except.ok cmd
    ∧ (command_echo_read cmd rt (ReadOutcome.success d)
        (ReadOutcome.timeout e2)).2
        = [⟨RePattern.escaped cmd, rt⟩, ⟨RePattern.escaped cmd, (3 : ℚ) / 2⟩] :=
  ⟨rfl, rfl, rfl, rfl⟩

/-- C5 counterexample: a caller explicitly passing `cmd_verify=False` to
`send_command_timing` does NOT get echo verification forced back on — the
explicit value is passed through to the generic implementation. -/
theorem send_command_timing_no_force_counterexample :
    ¬ ((send_command_timing ['l', 's'] (some false)).cmd_verify = true) := by
  decide

/-- C5 (amended): `send_command_timing` makes `true` the default for
`cmd_verify` (a caller that does not supply the flag gets echo verification
enabled), but a caller-supplied value is passed through unchanged to the
shared generic implementation — in particular `cmd_verify=false` disables
verification; the command string is forwarded unchanged. -/
theorem send_command_timing_cmd_verify (c : Str) :
    (send_command_timing c none).cmd_verify = true
    ∧ (∀ b, (send_command_timing c (some b)).cmd_verify = b)
    ∧ ∀ o, (send_command_timing c o).command_string = c :=
  ⟨rfl, fun _ => rfl, fun _ => rfl⟩

/-- C6: `set_base_prompt` stores exactly the stripped derived prompt and
returns it; the stored prompt never has trailing whitespace; and a repeated
call on the same derived prompt stores the same value. -/
theorem set_base_prompt_stores_trimmed (s : MikrotikSession) (P : Str) :
    (s.set_base_prompt P).1.base_prompt = pyStrip P
    ∧ (s.set_base_prompt P).2 = pyStrip P
    ∧ pyRstrip (s.set_base_prompt P).1.base_prompt
        = (s.set_base_prompt P).1.base_prompt
    ∧ ((s.set_base_prompt P).1.set_base_prompt P).1.base_prompt
        = (s.set_base_prompt P).1.base_prompt :=
  ⟨rfl, rfl, pyRstrip_pyStrip P, rfl⟩

/-- C7: the connection-parameter shaping step appends exactly the suffix
`"+cetw511h4098"` to the username, unconditionally and byte-for-byte; in
particular `"admin"` becomes `"admin+cetw511h4098"`. -/
theorem modify_connection_params_username :
    (∀ s : MikrotikSession,
      s.modify_connection_params.username
        = s.username ++ ['+', 'c', 'e', 't', 'w', '5', '1', '1', 'h', '4', '0', '9', '8'])
    ∧ sampleSession.modify_connection_params.username
        = ['a', 'd', 'm', 'i', 'n',
           '+', 'c', 'e', 't', 'w', '5', '1', '1', 'h', '4', '0', '9', '8'] :=
  ⟨fun _ => rfl, rfl⟩

/-- C8: `config_mode` sets the local flag and returns an empty result with
no transport operations; `exit_config_mode` clears it likewise;
`check_config_mode` reports the current flag with no transport interaction;
hence `config_mode` then `check_config_mode` yields `true`, and
`exit_config_mode` then `check_config_mode` yields `false`. -/
theorem config_mode_stubs (s : MikrotikSession) (cc p1 : Str) (rf : Int)
    (cs p2 ec p3 : Str) :
    (s.config_mode cc p1 rf).1.check_config_mode cs p2 = true
    ∧ (s.config_mode cc p1 rf).2 = ([], [])
    ∧ (s.exit_config_mode ec p3).1.check_config_mode cs p2 = false
    ∧ (s.exit_config_mode ec p3).2 = ([], [])
    ∧ s.check_config_mode cs p2 = s.in_config_mode :=
  ⟨rfl, rfl, rfl, rfl, rfl⟩

/-- C9: `disable_paging` and `save_config` always return an empty result,
perform zero transport operations, and leave the session state unchanged. -/
theorem paging_save_noops (s : MikrotikSession) (args : List Str) :
    s.disable_paging args = (s, [], []) ∧ s.save_config args = (s, [], []) :=
  ⟨rfl, rfl⟩

/-- C4: when the last line of the response (after splitting on the
session's line terminator) does not contain the stored base prompt as a
substring, `strip_prompt` is the identity. -/
theorem strip_prompt_identity (s : MikrotikSession) (a_string : Str)
    (h : containsSeq (lastLine s.RESPONSE_RETURN a_string) s.base_prompt
          = false) :
    s.strip_prompt a_string = a_string := by
  rw [strip_prompt_eq, h]
  simp

/-- Witness for C4 at a concrete session and response text. -/
theorem strip_prompt_identity_witness :
    containsSeq (lastLine sampleSession.RESPONSE_RETURN ['o', 'k'])
        sampleSession.base_prompt = false
    ∧ sampleSession.strip_prompt ['o', 'k'] = ['o', 'k'] :=
  ⟨by decide, strip_prompt_identity sampleSession ['o', 'k'] (by decide)⟩

/-- C3 counterexample: the text `"echo [admin] >\n[admin] >"` ends in
exactly one trailing line equal to the stored base prompt `"[admin] >"`
(its lines are the body `"echo [admin] >"`, which differs from the prompt,
followed by the prompt), yet `strip_prompt` does not return the trimmed
body: because the body's own last line contains the prompt as a substring,
the generic second stripping pass also deletes the body line, and the
result is `""`. -/
theorem strip_prompt_trailing_counterexample :
    pySplit sampleSession.RESPONSE_RETURN
        (['e', 'c', 'h', 'o', ' '] ++ sampleSession.base_prompt
          ++ '\n' :: sampleSession.base_prompt)
      = [['e', 'c', 'h', 'o', ' '] ++ sampleSession.base_prompt,
         sampleSession.base_prompt]
    ∧ ['e', 'c', 'h', 'o', ' '] ++ sampleSession.base_prompt
        ≠ sampleSession.base_prompt
    ∧ sampleSession.strip_prompt
        (['e', 'c', 'h', 'o', ' '] ++ sampleSession.base_prompt
          ++ '\n' :: sampleSession.base_prompt)
      ≠ pyStrip (['e', 'c', 'h', 'o', ' '] ++ sampleSession.base_prompt) := by
  decide

/-- C3 (amended): for a response text ending in one or two trailing lines
equal to the stored base prompt (prompt non-empty, free of trailing
whitespace and of the single-character line terminator; no body line
contains the terminator), `strip_prompt` removes the trailing prompt lines
and returns the remaining body trimmed — where in the one-trailing-line
case the body, after trailing-whitespace removal, must additionally have a
last line not containing the prompt (otherwise the generic second pass
removes body content, as the counterexample shows); a prompt occurrence
inside the body itself may remain in the result. -/
theorem strip_prompt_trailing_prompts (s : MikrotikSession) (c : Char)
    (body : List Str)
    (hsep : s.RESPONSE_RETURN = [c])
    (hPne : s.base_prompt ≠ [])
    (hPfix : pyRstrip s.base_prompt = s.base_prompt)
    (hPc : c ∉ s.base_prompt)
    (hbody : ∀ l ∈ body, c ∉ l) :
    (containsSeq (lastLine [c] (pyRstrip (List.intercalate [c] body)))
        s.base_prompt = false →
      s.strip_prompt (List.intercalate [c] (body ++ [s.base_prompt]))
        = pyStrip (List.intercalate [c] body))
    ∧ s.strip_prompt
        (List.intercalate [c] (body ++ [s.base_prompt, s.base_prompt]))
      = pyStrip (List.intercalate [c] body) := by
  obtain ⟨P, hP⟩ : ∃ P, s.base_prompt = P := ⟨s.base_prompt, rfl⟩
  rw [hP] at hPne hPfix hPc
  rw [hP]
  have hfreeA : ∀ l ∈ body ++ [P], c ∉ l := by
    intro l hl
    rcases List.mem_append.mp hl with h | h
    · exact hbody l h
    · rw [List.mem_singleton.mp h]
      exact hPc
  have hsplitA : pySplit [c] (List.intercalate [c] (body ++ [P]))
      = body ++ [P] :=
    pySplit_intercalate c (body ++ [P]) (by simp) hfreeA
  have hfixA : pyRstrip (List.intercalate [c] (body ++ [P]))
      = List.intercalate [c] (body ++ [P]) := by
    obtain ⟨x, hx⟩ := intercalate_concat_ex [c] P body
    rw [hx]
    exact pyRstrip_append_fixed x P hPfix hPne
  constructor
  · intro hnc
    rw [strip_prompt_eq, hsep, hP]
    simp only [lastLine, hsplitA, List.getLastD_concat, List.dropLast_concat,
      containsSeq_self]
    rw [if_pos trivial]
    have hbase : base_strip_prompt s (pyRstrip (List.intercalate [c] body))
        = pyRstrip (List.intercalate [c] body) := by
      rw [base_strip_prompt_eq, hsep, hP]
      simp only [hnc]
      simp
    rw [hbase, pyStrip_pyRstrip]
  · have hr : body ++ [P, P] = (body ++ [P]) ++ [P] := by simp
    have hfreeA2 : ∀ l ∈ (body ++ [P]) ++ [P], c ∉ l := by
      intro l hl
      rcases List.mem_append.mp hl with h | h
      · exact hfreeA l h
      · rw [List.mem_singleton.mp h]
        exact hPc
    have hsplitA2 : pySplit [c] (List.intercalate [c] ((body ++ [P]) ++ [P]))
        = (body ++ [P]) ++ [P] :=
      pySplit_intercalate c ((body ++ [P]) ++ [P]) (by simp) hfreeA2
    rw [hr, strip_prompt_eq, hsep, hP]
    simp only [lastLine, hsplitA2, List.getLastD_concat, List.dropLast_concat,
      containsSeq_self]
    rw [if_pos trivial, hfixA]
    have hbase : base_strip_prompt s (List.intercalate [c] (body ++ [P]))
        = List.intercalate [c] body := by
      rw [base_strip_prompt_eq, hsep, hP]
      simp only [lastLine, hsplitA, List.getLastD_concat,
        List.dropLast_concat, containsSeq_self]
      rw [if_pos trivial]
    rw [hbase]

/-- Witness for C3 (amended) at a concrete session: prompt `"[admin] >"`,
terminator `'\n'`, body lines `"out1"` and `"out2"`, exercising both the
one- and the two-trailing-prompt-line cases. -/
theorem strip_prompt_trailing_prompts_witness :
    sampleSession.strip_prompt
        (List.intercalate ['\n']
          ([['o', 'u', 't', '1'], ['o', 'u', 't', '2']]
            ++ [sampleSession.base_prompt]))
      = pyStrip (List.intercalate ['\n']
          [['o', 'u', 't', '1'], ['o', 'u', 't', '2']])
    ∧ sampleSession.strip_prompt
        (List.intercalate ['\n']
          ([['o', 'u', 't', '1'], ['o', 'u', 't', '2']]
            ++ [sampleSession.base_prompt, sampleSession.base_prompt]))
      = pyStrip (List.intercalate ['\n']
          [['o', 'u', 't', '1'], ['o', 'u', 't', '2']]) :=
  ⟨(strip_prompt_trailing_prompts sampleSession '\n'
      [['o', 'u', 't', '1'], ['o', 'u', 't', '2']]
      rfl (by decide) (by decide) (by decide) (by decide)).1 (by decide),
   (strip_prompt_trailing_prompts sampleSession '\n'
      [['o', 'u', 't', '1'], ['o', 'u', 't', '2']]
      rfl (by decide) (by decide) (by decide) (by decide)).2⟩

/-- C10: on a freshly constructed session `check_config_mode` returns
`false` (the constructor initializes the flag to `false`), and the
constructor sets `default_enter` to `"\r\n"` exactly when the caller did
not supply one. -/
theorem init_session_state (de : Option Str) (bp u rr : Str) (ansi : Bool)
    (cs p : Str) :
    (MikrotikSession.init de bp u rr ansi).check_config_mode cs p = false
    ∧ (MikrotikSession.init none bp u rr ansi).default_enter = ['\r', '\n']
    ∧ ∀ d, (MikrotikSession.init (some d) bp u rr ansi).default_enter = d :=
  ⟨rfl, rfl, fun _ => rfl⟩

end Mikrotik
